import Mathlib

/-!
Shallow embedding of the `kingkai` benchmark-comparison tool (Go).

The program compares two directories of vegeta load-test recordings
("before" and "after"), aggregates each file into per-scenario metrics,
pairs the scenarios by filename, sorts them by attack name, and renders
the comparison as markdown (default), CSV, or a colorized XLSX sheet.

Modelling conventions:
* Go `time.Duration` (an `int64` nanosecond count) is modelled as `Int`;
  the benchmark durations involved are far from the `int64` bounds, so
  overflow is not modelled.
* Go `float64` is modelled as `ℚ`; the arithmetic the classification
  performs (subtraction, comparison, division by powers of ten) is exact
  on the values at stake, and `fmt` verb rounding is modelled as exact
  rational rounding (`%.Nf` rounds half to even, as Go's `strconv` does
  on the exact value of the float).
* Go `uint64` is modelled as `Nat`.
-/

-- Rational arithmetic in core Lean is sealed behind well-founded helpers;
-- unsealing lets `decide`/`rfl` evaluate the formatters on concrete inputs.
unseal Rat.add Rat.sub Rat.mul Rat.inv Nat.gcd List.merge List.mergeSort

/-- Go `time.Millisecond` in nanoseconds. -/
def millisecondNS : Int := 1000000

/-- Go `time.Second` in nanoseconds. -/
def secondNS : Int := 1000000000

/-- Go `time.Minute` in nanoseconds. -/
def minuteNS : Int := 60000000000

/-- Left-pad a string with zeros to the given width. -/
def padZeros (width : Nat) (s : String) : String :=
  String.mk (List.replicate (width - s.length) '0') ++ s

/-- Drop trailing zero characters. -/
def dropTrailingZeros (s : String) : String :=
  String.mk ((s.toList.reverse.dropWhile (fun c => c = '0')).reverse)

/-- The fractional part of a Go duration rendering: `num` is the remainder
in the sub-unit, printed over `digits` digits with trailing zeros trimmed,
or nothing when the remainder is zero (as in Go's `fmtFrac`). -/
def fracString (num digits : Nat) : String :=
  if num = 0 then "" else "." ++ dropTrailingZeros (padZeros digits (toString num))

/-- Modelled from Go's standard library: `time.Duration.String`, the `%v`
rendering of a duration in nanoseconds.  Sub-second magnitudes pick the
`ns`/`µs`/`ms` unit; otherwise seconds (with trimmed fraction), minutes and
hours are emitted.  The zero duration renders as `0s`. -/
def goDurationString (v : Int) : String :=
  if v = 0 then "0s"
  else
    let sign := if v < 0 then "-" else ""
    let a := v.natAbs
    sign ++
      (if a < 1000 then toString a ++ "ns"
       else if a < 1000000 then toString (a / 1000) ++ fracString (a % 1000) 3 ++ "µs"
       else if a < 1000000000 then
         toString (a / 1000000) ++ fracString (a % 1000000) 6 ++ "ms"
       else
         let secs := a / 1000000000
         let frac := a % 1000000000
         let secStr := toString (secs % 60) ++ fracString frac 9 ++ "s"
         if secs < 60 then secStr
         else
           let mins := secs / 60
           let minStr := toString (mins % 60) ++ "m" ++ secStr
           if mins < 60 then minStr
           else toString (mins / 60) ++ "h" ++ minStr)

/-- Modelled from Go's standard library: `time.Duration.Round`, rounding a
duration to the nearest multiple of `m`, rounding half away from zero.
`Round` returns `d` unchanged for non-positive `m`. -/
def goRound (d m : Int) : Int :=
  if m ≤ 0 then d
  else
    let a := d.natAbs
    let mm := m.toNat
    let q := a / mm
    let r := a % mm
    let rounded : Nat := if 2 * r < mm then q * mm else (q + 1) * mm
    if d < 0 then -(rounded : Int) else (rounded : Int)

/-- Nearest integer to a rational, ties to even (the rounding Go's
`strconv`/`fmt` applies when formatting with a fixed number of decimals). -/
def roundHalfEven (x : ℚ) : Int :=
  let f := ⌊x⌋
  let diff := x - (f : ℚ)
  if diff < 1/2 then f
  else if (1:ℚ)/2 < diff then f + 1
  else if f % 2 = 0 then f else f + 1

/-- Modelled from Go's standard library: the `%.Nf` fmt verb applied to a
float value, here applied to the exact rational: round half to even at the
`n`-th decimal, keep the sign of the input (Go prints `-0.00` for tiny
negative values), always print exactly `n` decimals. -/
def fmtF (n : Nat) (x : ℚ) : String :=
  let scaled := roundHalfEven (x * ((10:ℚ) ^ n))
  let sign := if x < 0 then "-" else ""
  let a := scaled.natAbs
  let ip := a / 10 ^ n
  let fp := a % 10 ^ n
  sign ++ toString ip ++ (if n = 0 then "" else "." ++ padZeros n (toString fp))

/-- `smartFormat` from `src/main.go`: sub-second durations are rounded to
the millisecond, sub-minute durations to 100ms, and anything larger is
printed as `%.0fs` of `d.Seconds()`. -/
def smartFormat (d : Int) : String :=
  if (d > 0 ∧ d < secondNS) ∨ (d < 0 ∧ -d < secondNS) then
    goDurationString (goRound d (1 * millisecondNS))
  else if (d > 0 ∧ d < minuteNS) ∨ (d < 0 ∧ -d < minuteNS) then
    goDurationString (goRound d (100 * millisecondNS))
  else
    fmtF 0 ((d : ℚ) / (secondNS : ℚ)) ++ "s"

/-- `percentageIncrease` from `src/main.go` (float64 there, `ℚ` here). -/
def percentageIncrease (before after : ℚ) : ℚ :=
  if before = 0 then 0
  else ((after - before) / before) * 100

/-! ### Data model

The fields of `vegeta.Metrics` used by the program (`LatencyMetrics`,
`ByteMetrics`, `Metrics`) and the `benchmark` record from `src/main.go`.
Durations are `int64` nanoseconds (`Int` here), counters `uint64` (`Nat`),
rates/ratios/means `float64` (`ℚ`). -/

structure LatencyMetrics where
  Mean : Int
  P50 : Int
  P95 : Int
  P99 : Int
  Max : Int
deriving DecidableEq

structure ByteMetrics where
  Total : Nat
  Mean : ℚ
deriving DecidableEq

structure Metrics where
  Requests : Nat
  Rate : ℚ
  Throughput : ℚ
  Duration : Int
  Latencies : LatencyMetrics
  BytesOut : ByteMetrics
  BytesIn : ByteMetrics
  Success : ℚ
deriving DecidableEq

structure benchmark where
  name : String
  before : Metrics
  after : Metrics
deriving DecidableEq

/-! ### XLSX renderer: dynamic values and classification helpers

`equal`, `greaterThan` and `setCellColor` in `writeXLSX` (src/main.go
lines 355-428) receive `interface{}` arguments and type-switch on the
dynamic type.  `GoValue` models the dynamic value; a failed type
assertion or the `default: panic("never here")` branch is modelled as
`Except.error`.  `GoValue.other` stands for any dynamic type outside the
four switched-on types, making the default branch representable. -/

inductive GoValue
  | int (v : Int)
  | uint64 (v : Nat)
  | duration (v : Int)
  | float (v : ℚ)
  | other (tag : String)
deriving DecidableEq

/-- Modelled from Go's standard library: `reflect.DeepEqual` on the
dynamic values at stake — values of distinct dynamic types are never
deeply equal, values of one basic type compare with `==`. -/
def deepEqual : GoValue → GoValue → Bool
  | .int x, .int y => decide (x = y)
  | .uint64 x, .uint64 y => decide (x = y)
  | .duration x, .duration y => decide (x = y)
  | .float x, .float y => decide (x = y)
  | .other x, .other y => decide (x = y)
  | _, _ => false

/-- The `equal` closure of `writeXLSX`: `|x - y| < margin`, computed by
branching on which of the two is larger, after type-switching on `x` and
asserting the same type for `y` and `margin`. -/
def equal : GoValue → GoValue → GoValue → Except String Bool
  | .int x, .int y, .int m =>
    .ok (if x > y then decide (x - y < m) else decide (y - x < m))
  | .uint64 x, .uint64 y, .uint64 m =>
    .ok (if x > y then decide (x - y < m) else decide (y - x < m))
  | .duration x, .duration y, .duration m =>
    .ok (if x > y then decide (x - y < m) else decide (y - x < m))
  | .float x, .float y, .float m =>
    .ok (if x > y then decide (x - y < m) else decide (y - x < m))
  | .other _, _, _ => .error "panic: never here"
  | _, _, _ => .error "panic: interface conversion"

/-- The `greaterThan` closure of `writeXLSX`. -/
def greaterThan : GoValue → GoValue → Except String Bool
  | .int x, .int y => .ok (decide (x > y))
  | .uint64 x, .uint64 y => .ok (decide (x > y))
  | .duration x, .duration y => .ok (decide (x > y))
  | .float x, .float y => .ok (decide (x > y))
  | .other _, _ => .error "panic: never here"
  | _, _ => .error "panic: interface conversion"

deriving instance DecidableEq for Except

/-- The four fill styles `setCellColor` can assign. -/
inductive Style
  | green
  | gray
  | lightGray
  | red
deriving DecidableEq

/-- The `setCellColor` closure of `writeXLSX` (src/main.go lines 399-415):
gray on exact equality, light gray within the margin, otherwise green/red
according to the direction of change and `moreIsGood`. -/
def setCellColor (before after margin : GoValue) (moreIsGood : Bool) :
    Except String Style :=
  let moreStyle := if moreIsGood then Style.green else Style.red
  let lessStyle := if moreIsGood then Style.red else Style.green
  if deepEqual before after then Except.ok Style.gray
  else
    match equal before after margin with
    | .error e => .error e
    | .ok true => .ok Style.lightGray
    | .ok false =>
      match greaterThan after before with
      | .error e => .error e
      | .ok true => .ok moreStyle
      | .ok false => .ok lessStyle

/-- `round` from `src/main.go` (named `roundTo` here because Mathlib
already declares `round`): rounds `x` to a multiple of
`0.5 * (n + 1)` via `math.Round`, half away from zero. -/
def mathRound (x : ℚ) : ℚ :=
  if x ≥ 0 then (⌊x + 1/2⌋ : Int) else -(⌊-x + 1/2⌋ : Int)

/-- See `mathRound`: `round(x, n)` from `src/main.go` line 453. -/
def roundTo (x : ℚ) (n : Nat) : ℚ :=
  let unit : ℚ := (1/2) * ((n : ℚ) + 1)
  mathRound (x / unit) * unit

/-- `formatPercentageIncrease` closure (durations go through `float64`). -/
def formatPercentageIncrease (before after : Int) : String :=
  fmtF 0 (percentageIncrease (before : ℚ) (after : ℚ)) ++ "%"

/-- `formatPercentageIncreaseFloat` closure. -/
def formatPercentageIncreaseFloat (before after : ℚ) : String :=
  fmtF 0 (percentageIncrease before after) ++ "%"

/-- The `setCellIncrease` closure of `writeXLSX` (lines 416-420): the
rendered cell value, the comment text, and the style assignment of a
duration metric cell.  Classification runs on the raw durations. -/
def setCellIncrease (before after margin : Int) (moreIsGood : Bool) :
    String × String × Except String Style :=
  (smartFormat (after - before),
   smartFormat before ++ " -> " ++ smartFormat after ++ " (" ++
     formatPercentageIncrease before after ++ ")",
   setCellColor (.duration before) (.duration after) (.duration margin) moreIsGood)

/-- The `setCellIncreaseFloat` closure of `writeXLSX` (lines 421-428):
`before` and `after` are first reassigned to `round(·, nearestDecimal)`,
so the value, comment and the style all use the rounded values; the
margin is not rounded. -/
def setCellIncreaseFloat (before after margin : ℚ) (nearestDecimal : Nat)
    (unit : String) (moreIsGood : Bool) : String × String × Except String Style :=
  let b := roundTo before nearestDecimal
  let a := roundTo after nearestDecimal
  (fmtF nearestDecimal (a - b) ++ " " ++ unit,
   fmtF nearestDecimal b ++ " " ++ unit ++ " -> " ++ fmtF nearestDecimal a ++
     " " ++ unit ++ " (" ++ formatPercentageIncreaseFloat b a ++ ")",
   setCellColor (.float b) (.float a) (.float margin) moreIsGood)

/-- The per-metric margin flags of `src/main.go` (lines 77-82). -/
structure Margins where
  totalRequests : Int
  throughput : ℚ
  meanBytesSent : ℚ
  meanBytesReceived : ℚ
  success : ℚ
  requestDuration : Int
deriving DecidableEq

/-- The arguments of one XLSX metric cell: either a duration cell
(`setCellIncrease`) or a float cell (`setCellIncreaseFloat`). -/
inductive CellArg
  | dur (before after margin : Int)
  | flt (before after margin : ℚ) (nearestDecimal : Nat) (unit : String)
deriving DecidableEq

/-- Dispatch one cell to the helper the source calls for it. -/
def renderCell : CellArg × Bool → String × String × Except String Style
  | (.dur b a m, g) => setCellIncrease b a m g
  | (.flt b a m n u, g) => setCellIncreaseFloat b a m n u g

/-- The eleven metric cells B..L of one XLSX row, in source order
(src/main.go lines 433-443), each with the `moreIsGood` flag passed at
its call site.  (Cell A carries the name and cell M the test duration;
neither is classified.) -/
def xlsxCells (b : benchmark) (m : Margins) : List (CellArg × Bool) :=
  [(.flt (b.before.Requests : ℚ) (b.after.Requests : ℚ) (m.totalRequests : ℚ) 0 "requests", true),
   (.flt b.before.Rate b.after.Rate 0 0 "requests", true),
   (.flt b.before.Throughput b.after.Throughput m.throughput 1 "requests", true),
   (.dur b.before.Latencies.Mean b.after.Latencies.Mean m.requestDuration, false),
   (.dur b.before.Latencies.P50 b.after.Latencies.P50 m.requestDuration, false),
   (.dur b.before.Latencies.P95 b.after.Latencies.P95 m.requestDuration, false),
   (.dur b.before.Latencies.P99 b.after.Latencies.P99 m.requestDuration, false),
   (.dur b.before.Latencies.Max b.after.Latencies.Max m.requestDuration, false),
   (.flt b.before.BytesOut.Mean b.after.BytesOut.Mean m.meanBytesSent 0 "bytes", true),
   (.flt b.before.BytesIn.Mean b.after.BytesIn.Mean m.meanBytesReceived 0 "bytes", true),
   (.flt (b.before.Success * 100) (b.after.Success * 100) m.success 0 "percent", true)]

/-- One rendered XLSX metric row (value, comment, style per cell). -/
def writeXLSXRow (b : benchmark) (m : Margins) :
    List (String × String × Except String Style) :=
  (xlsxCells b m).map renderCell

/-! ### The classification of the spec (§4.3)

`classifySpec` follows the spec's words: `Unchanged` on exact equality,
`WithinMargin` when `|after - before| < margin`, otherwise
`Improved`/`Regressed` by the better direction under the polarity.
`styleOf` is the legend's fixed mapping of classifications to fills. -/

inductive Classification
  | unchanged
  | withinMargin
  | improved
  | regressed
deriving DecidableEq

def classifySpec {α : Type} [LinearOrderedAddCommGroup α]
    (before after margin : α) (polarity : Bool) : Classification :=
  if before = after then .unchanged
  else if |after - before| < margin then .withinMargin
  else if (if polarity then after > before else after < before) then .improved
  else .regressed

def styleOf : Classification → Style
  | .unchanged => .gray
  | .withinMargin => .lightGray
  | .improved => .green
  | .regressed => .red

/-! ### CSV renderer (`writeCSV`, src/main.go lines 180-270)

`fmt.Sprint` of a `float64` (used for the raw throughput and byte-mean
columns) is Go's shortest-round-trip float formatting; it never affects
column structure, so it is taken as a parameter `fp`. -/

def csvHeader : List String :=
  ["Name",
   "Queries per second",
   "Duration",
   "Mean bytes sent change",
   "Mean bytes received change",
   "Throughput",
   "Mean change",
   "P50 change",
   "P95 change",
   "P99 change",
   "Max change",
   "Success before",
   "Success after",
   "",
   "Mean before",
   "Mean after",
   "P50 before",
   "P50 after",
   "P95 before",
   "P95 after",
   "P99 before",
   "P99 after",
   "Max before",
   "Max after",
   "Throughput before",
   "Throughput after",
   "Total sent bytes before",
   "Total sent bytes after",
   "Mean sent bytes before",
   "Mean sent bytes after",
   "Total received bytes before",
   "Total received bytes after",
   "Mean received bytes before",
   "Mean received bytes after"]

/-- One CSV data row, cell by cell from src/main.go lines 230-268. -/
def csvRow (fp : ℚ → String) (b : benchmark) : List String :=
  let before := b.before.Latencies
  let after := b.after.Latencies
  [b.name,
   fmtF 0 b.after.Rate,
   goDurationString (goRound b.after.Duration (3 * secondNS)),
   formatPercentageIncreaseFloat b.before.BytesOut.Mean b.after.BytesOut.Mean,
   formatPercentageIncreaseFloat b.before.BytesIn.Mean b.after.BytesIn.Mean,
   formatPercentageIncreaseFloat b.before.Throughput b.after.Throughput,
   formatPercentageIncrease before.Mean after.Mean,
   formatPercentageIncrease before.P50 after.P50,
   formatPercentageIncrease before.P95 after.P95,
   formatPercentageIncrease before.P99 after.P99,
   formatPercentageIncrease before.Max after.Max,
   fmtF 1 (b.before.Success * 100) ++ "%",
   fmtF 1 (b.after.Success * 100) ++ "%",
   "",
   smartFormat before.Mean,
   smartFormat after.Mean,
   smartFormat before.P50,
   smartFormat after.P50,
   smartFormat before.P95,
   smartFormat after.P95,
   smartFormat before.P99,
   smartFormat after.P99,
   smartFormat before.Max,
   smartFormat after.Max,
   fp b.before.Throughput,
   fp b.after.Throughput,
   toString b.before.BytesOut.Total,
   toString b.after.BytesOut.Total,
   fp b.before.BytesOut.Mean,
   fp b.after.BytesOut.Mean,
   toString b.before.BytesIn.Total,
   toString b.after.BytesIn.Total,
   fp b.before.BytesIn.Mean,
   fp b.after.BytesIn.Mean]

/-- Definition following the words of claim C4 / spec §6: name, rate,
duration, then a `[delta%, raw-before, raw-after]` triple for each of
bytes-sent-mean, bytes-received-mean, throughput, mean, p50, p95, p99,
max latency, then success-before and success-after. -/
def csvRowClaimed (fp : ℚ → String) (b : benchmark) : List String :=
  let before := b.before.Latencies
  let after := b.after.Latencies
  [b.name,
   fmtF 0 b.after.Rate,
   goDurationString (goRound b.after.Duration (3 * secondNS))] ++
  [formatPercentageIncreaseFloat b.before.BytesOut.Mean b.after.BytesOut.Mean,
   fp b.before.BytesOut.Mean, fp b.after.BytesOut.Mean] ++
  [formatPercentageIncreaseFloat b.before.BytesIn.Mean b.after.BytesIn.Mean,
   fp b.before.BytesIn.Mean, fp b.after.BytesIn.Mean] ++
  [formatPercentageIncreaseFloat b.before.Throughput b.after.Throughput,
   fp b.before.Throughput, fp b.after.Throughput] ++
  [formatPercentageIncrease before.Mean after.Mean,
   smartFormat before.Mean, smartFormat after.Mean] ++
  [formatPercentageIncrease before.P50 after.P50,
   smartFormat before.P50, smartFormat after.P50] ++
  [formatPercentageIncrease before.P95 after.P95,
   smartFormat before.P95, smartFormat after.P95] ++
  [formatPercentageIncrease before.P99 after.P99,
   smartFormat before.P99, smartFormat after.P99] ++
  [formatPercentageIncrease before.Max after.Max,
   smartFormat before.Max, smartFormat after.Max] ++
  [fmtF 1 (b.before.Success * 100) ++ "%",
   fmtF 1 (b.after.Success * 100) ++ "%"]

/-- The column order `writeCSV` actually emits, written as the blocks of
the amended claim: identity columns, all percentage deltas, the success
pair, a blank separator, then raw before/after pairs. -/
def csvRowAmended (fp : ℚ → String) (b : benchmark) : List String :=
  let before := b.before.Latencies
  let after := b.after.Latencies
  [b.name,
   fmtF 0 b.after.Rate,
   goDurationString (goRound b.after.Duration (3 * secondNS))] ++
  [formatPercentageIncreaseFloat b.before.BytesOut.Mean b.after.BytesOut.Mean,
   formatPercentageIncreaseFloat b.before.BytesIn.Mean b.after.BytesIn.Mean,
   formatPercentageIncreaseFloat b.before.Throughput b.after.Throughput,
   formatPercentageIncrease before.Mean after.Mean,
   formatPercentageIncrease before.P50 after.P50,
   formatPercentageIncrease before.P95 after.P95,
   formatPercentageIncrease before.P99 after.P99,
   formatPercentageIncrease before.Max after.Max] ++
  [fmtF 1 (b.before.Success * 100) ++ "%",
   fmtF 1 (b.after.Success * 100) ++ "%"] ++
  [""] ++
  [smartFormat before.Mean, smartFormat after.Mean,
   smartFormat before.P50, smartFormat after.P50,
   smartFormat before.P95, smartFormat after.P95,
   smartFormat before.P99, smartFormat after.P99,
   smartFormat before.Max, smartFormat after.Max] ++
  [fp b.before.Throughput, fp b.after.Throughput] ++
  [toString b.before.BytesOut.Total, toString b.after.BytesOut.Total,
   fp b.before.BytesOut.Mean, fp b.after.BytesOut.Mean] ++
  [toString b.before.BytesIn.Total, toString b.after.BytesIn.Total,
   fp b.before.BytesIn.Mean, fp b.after.BytesIn.Mean]

/-- The rows `writeCSV` writes: header then one row per benchmark. -/
def writeCSV (fp : ℚ → String) (benchmarks : List benchmark) : List (List String) :=
  csvHeader :: benchmarks.map (csvRow fp)

/-! ### Markdown renderer (`writeMarkdown`, src/main.go lines 458-485) -/

/-- The `formatDurationDifference` closure: both durations rounded to the
millisecond and rendered with `%v`, the percentage with `%.2f`. -/
def formatDurationDifference (before after : Int) : String :=
  goDurationString (goRound before millisecondNS) ++ " → " ++
  goDurationString (goRound after millisecondNS) ++ " (" ++
  fmtF 2 (percentageIncrease (before : ℚ) (after : ℚ)) ++ "%)"

/-- One markdown table data row; the success cell prints
`"%.2f%% → %.2f%%"` of the raw `Success` field. -/
def writeMarkdownRow (b : benchmark) : String :=
  "| " ++ formatDurationDifference b.before.Latencies.Mean b.after.Latencies.Mean ++
  " | " ++ formatDurationDifference b.before.Latencies.P50 b.after.Latencies.P50 ++
  " | " ++ formatDurationDifference b.before.Latencies.P95 b.after.Latencies.P95 ++
  " | " ++ formatDurationDifference b.before.Latencies.P99 b.after.Latencies.P99 ++
  " | " ++ formatDurationDifference b.before.Latencies.Max b.after.Latencies.Max ++
  " | " ++ fmtF 2 b.before.Success ++ "% → " ++ fmtF 2 b.after.Success ++ "%" ++
  " |"

/-- The lines `writeMarkdown` prints. -/
def writeMarkdown (benchmarks : List benchmark) : List String :=
  (benchmarks.map (fun b =>
    ["### " ++ b.name,
     "",
     "| Mean | P50 | P95 | P99 | Max | Success Ratio |",
     "|------|-----|-----|-----|-----|---------------|",
     writeMarkdownRow b,
     ""])).flatten

/-! ### The main pipeline (`main` and `attackNameAndMetrics`)

Directory enumeration, file reading and the vegeta decoder/aggregator are
external collaborators.  A directory is a list of `FileEntry`
(name + is-directory flag); a file's decoded content is a `FileData`: the
successfully decoded records, whether the stream ended in a decode error
rather than clean EOF, and the file size.  The vegeta aggregation
(`Metrics.Add`/`Close`) is a parameter `agg` of the pipeline. -/

structure FileEntry where
  name : String
  isDir : Bool
deriving DecidableEq

/-- The common-filename computation of `main` (src/main.go lines 113-121):
keep each before-entry whose name also occurs as a non-directory entry of
the after listing, both sides required to be non-directories. -/
def commonFiles (beforeFIs afterFIs : List FileEntry) : List String :=
  (beforeFIs.filter (fun b =>
    !b.isDir && afterFIs.any (fun a => !a.isDir && b.name == a.name))).map
    (fun e => e.name)

/-- A decoded vegeta record; only the attack name is inspected by this
repository's own code (the remaining fields feed the external
aggregator, absorbed in the `agg` parameter). -/
structure Result where
  Attack : String
deriving DecidableEq

structure FileData where
  results : List Result
  endsWithError : Bool
  size : Nat
deriving DecidableEq

/-- The attack-name selection of `attackNameAndMetrics`: the first
decoded record with a non-empty attack name. -/
def firstAttack : List Result → String
  | [] => ""
  | r :: rs => if r.Attack ≠ "" then r.Attack else firstAttack rs

/-- `attackNameAndMetrics` (src/main.go lines 23-57): decode records until
EOF, a mid-stream decode error is returned as an error; otherwise the
attack name, the aggregated metrics and the file size. -/
def attackNameAndMetrics (agg : List Result → Metrics) (fd : FileData) :
    Except String (String × Metrics × Nat) :=
  if fd.endsWithError then .error "decode error"
  else .ok (firstAttack fd.results, agg fd.results, fd.size)

structure Inputs where
  beforeEntries : List FileEntry
  afterEntries : List FileEntry
  beforeContent : String → FileData
  afterContent : String → FileData

/-- One iteration of the benchmark-collection loop of `main` (lines
128-145): read both sides of one common filename, `log.Fatal` (an error
here) aborting on either side's failure; yields the benchmark and the
file-size / request-count contributions to the run totals. -/
def processFile (agg : List Result → Metrics) (inp : Inputs) (file : String) :
    Except String (benchmark × Nat × Nat) := do
  let (name, before, sz1) ← attackNameAndMetrics agg (inp.beforeContent file)
  let (_, after, sz2) ← attackNameAndMetrics agg (inp.afterContent file)
  pure (⟨name, before, after⟩, sz1 + sz2, before.Requests + after.Requests)

/-- The collection loop of `main` over a list of common filenames, in
order; the first failing file aborts the whole loop (`log.Fatal`). -/
def collectBenchmarks (agg : List Result → Metrics) (inp : Inputs) :
    List String → Except String (List (benchmark × Nat × Nat))
  | [] => .ok []
  | f :: fs => do
    let x ← processFile agg inp f
    let xs ← collectBenchmarks agg inp fs
    pure (x :: xs)

/-- The collection loop of `main`: benchmarks in common-filename order,
with the dataset-bytes and requests totals. -/
def runMainRaw (agg : List Result → Metrics) (inp : Inputs) :
    Except String (List benchmark × Nat × Nat) := do
  let xs ← collectBenchmarks agg inp (commonFiles inp.beforeEntries inp.afterEntries)
  pure (xs.map (fun x => x.1),
        (xs.map (fun x => x.2.1)).sum,
        (xs.map (fun x => x.2.2)).sum)

/-- The `sort.Slice` call of `main` (lines 146-148): sort benchmarks by
name with the comparator `benchmarks[i].name < benchmarks[j].name`. -/
def sortBenchmarks (l : List benchmark) : List benchmark :=
  l.mergeSort (fun a b => decide (a.name ≤ b.name))

/-- `main` up to the renderer dispatch: collect, then sort by name. -/
def runMain (agg : List Result → Metrics) (inp : Inputs) :
    Except String (List benchmark × Nat × Nat) :=
  (runMainRaw agg inp).map (fun x => (sortBenchmarks x.1, x.2.1, x.2.2))

inductive OutputFormat
  | csv
  | xlsx
  | markdown
deriving DecidableEq

inductive RenderedReport
  | markdown (lines : List String)
  | csv (rows : List (List String))
  | xlsx (requestsTotal datasetTotal : Nat)
      (rows : List (List (String × String × Except String Style)))
deriving DecidableEq

/-- The renderer dispatch at the end of `main` (lines 150-156). -/
def render (fp : ℚ → String) (fmt : OutputFormat) (m : Margins)
    (requestsTotal datasetTotal : Nat) (bs : List benchmark) : RenderedReport :=
  match fmt with
  | .markdown => .markdown (writeMarkdown bs)
  | .csv => .csv (writeCSV fp bs)
  | .xlsx => .xlsx requestsTotal datasetTotal (bs.map (fun b => writeXLSXRow b m))

/-- The whole run: exit code 1 and no report on any fatal error, exit
code 0 and the rendered report otherwise. -/
def runProgram (agg : List Result → Metrics) (fp : ℚ → String)
    (fmt : OutputFormat) (m : Margins) (inp : Inputs) :
    Nat × Option RenderedReport :=
  match runMain agg inp with
  | .error _ => (1, none)
  | .ok (bs, datasetTotal, requestsTotal) =>
    (0, some (render fp fmt m requestsTotal datasetTotal bs))

/-- Definition following the words of claim C8 / spec §4.4: magnitude
below one second renders the value rounded to the nearest millisecond
with an `ms` unit; magnitude in `[1s, 1min)` renders the value rounded to
the nearest 100ms with an `s` unit and one decimal visible; magnitude of
a minute or more renders as `%.0fs`; the sign is preserved. -/
def claimedSmartFormat (d : Int) : String :=
  if |d| < secondNS then
    (if d < 0 then "-" else "") ++
      toString ((goRound d millisecondNS).natAbs / millisecondNS.toNat) ++ "ms"
  else if |d| < minuteNS then
    let tenths := (goRound d (100 * millisecondNS)).natAbs / (100 * millisecondNS).toNat
    (if d < 0 then "-" else "") ++
      toString (tenths / 10) ++ "." ++ toString (tenths % 10) ++ "s"
  else fmtF 0 ((d : ℚ) / (secondNS : ℚ)) ++ "s"

/-! ### Theorems -/

/-- The branchy margin test of the `equal` closure computes
`|after - before| < margin`. -/
theorem decide_margin_eq {α : Type} [LinearOrderedAddCommGroup α] (b a m : α) :
    (if b > a then decide (b - a < m) else decide (a - b < m)) =
      decide (|a - b| < m) := by
  by_cases h : b > a
  · rw [if_pos h, decide_eq_decide, abs_of_neg (sub_neg.mpr h), neg_sub]
  · rw [if_neg h, decide_eq_decide, abs_of_nonneg (sub_nonneg.mpr (not_lt.mp h))]

/-- `setCellColor` on homogeneous float64 arguments implements the
spec's classification. -/
theorem setCellColor_spec_float (b a m : ℚ) (g : Bool) :
    setCellColor (.float b) (.float a) (.float m) g =
      Except.ok (styleOf (classifySpec b a m g)) := by
  have hm := decide_margin_eq b a m
  by_cases h1 : b = a
  · subst h1
    simp [setCellColor, deepEqual, classifySpec, styleOf]
  · by_cases h2 : |a - b| < m
    · simp [setCellColor, deepEqual, equal, h1, hm, h2, classifySpec, styleOf]
    · by_cases h3 : a > b
      · have h4 : ¬a < b := asymm h3
        have h5 : ¬a - b < m := fun hh => h2 (by
          rw [abs_of_pos (sub_pos.mpr h3)]
          exact hh)
        cases g <;>
          simp [setCellColor, deepEqual, equal, greaterThan, h1, hm, h2, h3, h4,
            h5, classifySpec, styleOf]
      · have h4 : a < b := lt_of_le_of_ne (not_lt.mp h3) (fun hh => h1 hh.symm)
        have h5 : ¬b - a < m := fun hh => h2 (by
          rw [abs_of_neg (sub_neg.mpr h4), neg_sub]
          exact hh)
        cases g <;>
          simp [setCellColor, deepEqual, equal, greaterThan, h1, hm, h2, h3, h4,
            h5, classifySpec, styleOf]

/-- `setCellColor` on homogeneous duration arguments implements the
spec's classification. -/
theorem setCellColor_spec_duration (b a m : Int) (g : Bool) :
    setCellColor (.duration b) (.duration a) (.duration m) g =
      Except.ok (styleOf (classifySpec b a m g)) := by
  have hm := decide_margin_eq b a m
  by_cases h1 : b = a
  · subst h1
    simp [setCellColor, deepEqual, classifySpec, styleOf]
  · by_cases h2 : |a - b| < m
    · simp [setCellColor, deepEqual, equal, h1, hm, h2, classifySpec, styleOf]
    · by_cases h3 : a > b
      · have h4 : ¬a < b := asymm h3
        have h5 : ¬a - b < m := fun hh => h2 (by
          rw [abs_of_pos (sub_pos.mpr h3)]
          exact hh)
        cases g <;>
          simp [setCellColor, deepEqual, equal, greaterThan, h1, hm, h2, h3, h4,
            h5, classifySpec, styleOf]
      · have h4 : a < b := lt_of_le_of_ne (not_lt.mp h3) (fun hh => h1 hh.symm)
        have h5 : ¬b - a < m := fun hh => h2 (by
          rw [abs_of_neg (sub_neg.mpr h4), neg_sub]
          exact hh)
        cases g <;>
          simp [setCellColor, deepEqual, equal, greaterThan, h1, hm, h2, h3, h4,
            h5, classifySpec, styleOf]

/-- C1: in the matrix (XLSX) renderer the classification is gray
(`Unchanged`) exactly when before equals after exactly, else light gray
(`WithinMargin`) exactly when `|after - before| < margin` strictly, else
green (`Improved`) when the change is in the better direction under the
cell's polarity and red (`Regressed`) otherwise — in both the float64
and the duration domain — and the row's call sites use `HigherIsBetter`
polarity exactly for request count, rate, throughput, bytes
sent/received and success ratio, `LowerIsBetter` for the five latency
statistics (mean, p50, p95, p99, max). -/
theorem xlsx_classification_matches_spec :
    (∀ (b a m : ℚ) (g : Bool),
        setCellColor (.float b) (.float a) (.float m) g =
          Except.ok (styleOf (classifySpec b a m g)))
    ∧ (∀ (b a m : Int) (g : Bool),
        setCellColor (.duration b) (.duration a) (.duration m) g =
          Except.ok (styleOf (classifySpec b a m g)))
    ∧ ∀ (bm : benchmark) (mg : Margins),
        (xlsxCells bm mg).map Prod.snd =
          [true, true, true, false, false, false, false, false, true, true, true] :=
  ⟨setCellColor_spec_float, setCellColor_spec_duration, fun _ _ => rfl⟩

/-- Every XLSX metric cell's style computation succeeds. -/
theorem renderCell_no_panic (c : CellArg × Bool) :
    ∃ s, (renderCell c).2.2 = Except.ok s := by
  rcases c with ⟨arg, g⟩
  cases arg with
  | dur b a m => exact ⟨_, setCellColor_spec_duration b a m g⟩
  | flt b a m n u => exact ⟨_, setCellColor_spec_float (roundTo b n) (roundTo a n) m g⟩

/-- C10: every call to the classification helpers in the XLSX row passes
before, after and margin with one identical dynamic type (float64 or
Duration), so the `panic("never here")` defaults are unreachable and
every cell is assigned exactly one of the four styles. -/
theorem xlsx_row_no_panic (b : benchmark) (m : Margins)
    (cell : String × String × Except String Style)
    (hc : cell ∈ writeXLSXRow b m) : ∃ s, cell.2.2 = Except.ok s := by
  simp only [writeXLSXRow] at hc
  rcases List.mem_map.mp hc with ⟨c, _, rfl⟩
  exact renderCell_no_panic c

/-- Witness for C10 at a concrete benchmark: the first cell of the row
of an all-zero benchmark. -/
theorem xlsx_row_no_panic_witness :
    ∃ s, ((CellArg.flt 0 0 0 0 "requests", true) |> renderCell).2.2 = Except.ok s :=
  xlsx_row_no_panic
    ⟨"", ⟨0, 0, 0, 0, ⟨0, 0, 0, 0, 0⟩, ⟨0, 0⟩, ⟨0, 0⟩, 0⟩,
         ⟨0, 0, 0, 0, ⟨0, 0, 0, 0, 0⟩, ⟨0, 0⟩, ⟨0, 0⟩, 0⟩⟩
    ⟨0, 0, 0, 0, 0, 0⟩ _ (by decide)

/-- C7: the percentage delta is 0 when before is 0, regardless of after,
and `((after - before) / before) * 100` otherwise. -/
theorem percentage_delta_spec :
    (∀ after : ℚ, percentageIncrease 0 after = 0)
    ∧ ∀ (before after : ℚ), before ≠ 0 →
        percentageIncrease before after = ((after - before) / before) * 100 := by
  constructor
  · intro a
    simp [percentageIncrease]
  · intro b a hb
    simp [percentageIncrease, hb]

/-- Witness for C7 at `before = 1, after = 3`. -/
theorem percentage_delta_spec_witness :
    (1 : ℚ) ≠ 0 ∧ percentageIncrease 1 3 = ((3 - 1) / 1) * 100 :=
  ⟨by decide, percentage_delta_spec.2 1 3 (by decide)⟩

/-- `math.Round` of an integer value is that value. -/
theorem mathRound_intCast (m : Int) : mathRound (m : ℚ) = m := by
  unfold mathRound
  by_cases h : ((m : ℚ)) ≥ 0
  · rw [if_pos h, add_comm, Int.floor_add_int]
    norm_num
  · rw [if_neg h]
    have hcast : -(m : ℚ) = ((-m : Int) : ℚ) := by push_cast; ring
    rw [hcast, add_comm, Int.floor_add_int]
    norm_num

/-- `round(x, 0)` from the source leaves integer values unchanged. -/
theorem roundTo_intCast (k : Int) : roundTo (k : ℚ) 0 = k := by
  show mathRound ((k : ℚ) / ((1 : ℚ)/2 * (((0 : Nat) : ℚ) + 1))) *
      ((1 : ℚ)/2 * (((0 : Nat) : ℚ) + 1)) = k
  have h2 : (k : ℚ) / ((1 : ℚ)/2 * (((0 : Nat) : ℚ) + 1)) = ((2 * k : Int) : ℚ) := by
    push_cast
    ring
  rw [h2, mathRound_intCast]
  push_cast
  ring

/-- C2 (amended): duration metrics are classified on the raw
full-precision durations, but float metrics are classified on values
first rounded by `round(·, nearestDecimal)`; the margin is not rounded,
and integer-valued inputs with `nearestDecimal = 0` are unaffected. -/
theorem classification_precision_amended :
    (∀ (b a m : Int) (g : Bool),
        (setCellIncrease b a m g).2.2 =
          Except.ok (styleOf (classifySpec b a m g)))
    ∧ (∀ (b a m : ℚ) (n : Nat) (u : String) (g : Bool),
        (setCellIncreaseFloat b a m n u g).2.2 =
          Except.ok (styleOf (classifySpec (roundTo b n) (roundTo a n) m g)))
    ∧ ∀ k : Int, roundTo (k : ℚ) 0 = k :=
  ⟨fun b a m g => setCellColor_spec_duration b a m g,
   fun b a m n _ g => setCellColor_spec_float (roundTo b n) (roundTo a n) m g,
   roundTo_intCast⟩

/-- C2 counterexample: a throughput cell (`nearestDecimal = 1`, whose
rounding unit is 1.0) with before 100, after 100.4 and margin 0 is
colored gray (`Unchanged`) because both values round to 100, while the
full-precision classification of the same inputs is green
(`Improved`). -/
theorem classification_precision_counterexample :
    (setCellIncreaseFloat 100 (502/5) 0 1 "requests" true).2.2 =
        Except.ok Style.gray
    ∧ styleOf (classifySpec (100 : ℚ) (502/5) 0 true) = Style.green
    ∧ Style.gray ≠ Style.green :=
  ⟨by decide, by decide, by decide⟩

/-- C4 counterexample: at a concrete benchmark (all-zero metrics) the
row `writeCSV` emits is not the claimed triple layout — the code groups
all percentage deltas first and appends raw before/after pairs after a
blank column, rather than interleaving `[delta, before, after]`
triples. -/
theorem csv_columns_counterexample :
    csvRow (fun q => toString q.num)
        ⟨"n", ⟨0, 0, 0, 0, ⟨0, 0, 0, 0, 0⟩, ⟨0, 0⟩, ⟨0, 0⟩, 0⟩,
              ⟨0, 0, 0, 0, ⟨0, 0, 0, 0, 0⟩, ⟨0, 0⟩, ⟨0, 0⟩, 0⟩⟩ ≠
      csvRowClaimed (fun q => toString q.num)
        ⟨"n", ⟨0, 0, 0, 0, ⟨0, 0, 0, 0, 0⟩, ⟨0, 0⟩, ⟨0, 0⟩, 0⟩,
              ⟨0, 0, 0, 0, ⟨0, 0, 0, 0, 0⟩, ⟨0, 0⟩, ⟨0, 0⟩, 0⟩⟩ := by
  decide

/-- C4 (amended): the CSV data row is name, rate, duration, then the
percentage deltas for bytes-sent-mean, bytes-received-mean, throughput,
mean, p50, p95, p99, max, then success-before and success-after, a blank
separator column, and finally raw before/after pairs for the five
latency statistics, throughput, total and mean bytes sent, total and
mean bytes received. -/
theorem csv_columns_amended (fp : ℚ → String) (b : benchmark) :
    csvRow fp b = csvRowAmended fp b := rfl

/-- C5: exactly the filenames present as non-directory entries in both
directories are compared — a filename on only one side is silently
dropped — and an empty before directory yields zero pairs, an empty
(markdown) report and exit code 0, whatever the after directory
holds. -/
theorem scenario_pairing_intersection :
    (∀ (bf af : List FileEntry) (x : String),
        x ∈ commonFiles bf af ↔
          (∃ e ∈ bf, e.isDir = false ∧ e.name = x)
          ∧ ∃ e ∈ af, e.isDir = false ∧ e.name = x)
    ∧ ∀ (agg : List Result → Metrics) (fp : ℚ → String) (m : Margins)
        (af : List FileEntry) (bc ac : String → FileData),
        runProgram agg fp .markdown m ⟨[], af, bc, ac⟩ =
          (0, some (.markdown [])) := by
  constructor
  · intro bf af x
    simp only [commonFiles, List.mem_map, List.mem_filter, Bool.and_eq_true,
      Bool.not_eq_true', List.any_eq_true, beq_iff_eq]
    constructor
    · rintro ⟨e, ⟨he, hdir, a, ha, hadir, hname⟩, rfl⟩
      exact ⟨⟨e, he, hdir, rfl⟩, ⟨a, ha, hadir, hname.symm⟩⟩
    · rintro ⟨⟨e, he, hdir, hex⟩, ⟨a, ha, hadir, hax⟩⟩
      exact ⟨e, ⟨he, hdir, a, ha, hadir, by rw [hex, hax]⟩, hex⟩
  · intro agg fp m af bc ac
    rfl

/-- C6: the rendered report lists scenarios in lexicographic order of
the scenario (attack) name obtained during aggregation: whenever the run
succeeds, the benchmark list every renderer receives is sorted by name
and is a permutation of the benchmarks in common-filename order. -/
theorem report_is_sorted_by_name (agg : List Result → Metrics) (fp : ℚ → String)
    (fmt : OutputFormat) (m : Margins) (inp : Inputs)
    (bs : List benchmark) (dt rt : Nat)
    (h : runMain agg inp = Except.ok (bs, dt, rt)) :
    List.Sorted (fun x y : benchmark => x.name ≤ y.name) bs
    ∧ (∃ raw, runMainRaw agg inp = Except.ok (raw, dt, rt) ∧ bs.Perm raw)
    ∧ runProgram agg fp fmt m inp = (0, some (render fp fmt m rt dt bs)) := by
  cases hr : runMainRaw agg inp with
  | error e =>
    rw [runMain, hr] at h
    simp [Except.map] at h
  | ok x =>
    obtain ⟨raw, d0, r0⟩ := x
    rw [runMain, hr] at h
    simp only [Except.map, Except.ok.injEq, Prod.mk.injEq] at h
    obtain ⟨hbs, hd, hr2⟩ := h
    subst hbs
    subst hd
    subst hr2
    refine ⟨?_, ⟨raw, rfl, List.mergeSort_perm raw _⟩, ?_⟩
    · have hp := @List.sorted_mergeSort benchmark
        (fun a b : benchmark => decide (a.name ≤ b.name))
        (fun a b c hab hbc => by
          simp only [decide_eq_true_eq] at *
          exact le_trans hab hbc)
        (fun a b => by
          simp only [Bool.or_eq_true, decide_eq_true_eq]
          exact le_total a.name b.name)
        raw
      exact hp.imp (fun hab => of_decide_eq_true hab)
    · simp [runProgram, runMain, hr, Except.map]

/-- Witness for C6 at the empty run (no input files). -/
theorem report_is_sorted_by_name_witness :
    List.Sorted (fun x y : benchmark => x.name ≤ y.name) ([] : List benchmark)
    ∧ (∃ raw, runMainRaw (fun _ => ⟨0, 0, 0, 0, ⟨0, 0, 0, 0, 0⟩, ⟨0, 0⟩, ⟨0, 0⟩, 0⟩)
          ⟨[], [], fun _ => ⟨[], false, 0⟩, fun _ => ⟨[], false, 0⟩⟩ =
            Except.ok (raw, 0, 0)
        ∧ ([] : List benchmark).Perm raw)
    ∧ runProgram (fun _ => ⟨0, 0, 0, 0, ⟨0, 0, 0, 0, 0⟩, ⟨0, 0⟩, ⟨0, 0⟩, 0⟩)
        (fun _ => "") OutputFormat.markdown ⟨0, 0, 0, 0, 0, 0⟩
        ⟨[], [], fun _ => ⟨[], false, 0⟩, fun _ => ⟨[], false, 0⟩⟩ =
        (0, some (render (fun _ => "") OutputFormat.markdown ⟨0, 0, 0, 0, 0, 0⟩
          0 0 [])) :=
  report_is_sorted_by_name _ _ _ _ _ _ _ _ rfl

/-- A file whose stream ends in a decode error makes its loop iteration
fail on whichever side is broken. -/
theorem processFile_error (agg : List Result → Metrics) (inp : Inputs) (f : String)
    (h : (inp.beforeContent f).endsWithError = true
        ∨ (inp.afterContent f).endsWithError = true) :
    ∃ e, processFile agg inp f = Except.error e := by
  by_cases hb : (inp.beforeContent f).endsWithError = true
  · exact ⟨"decode error", by
      simp [processFile, attackNameAndMetrics, hb, Bind.bind, Except.bind]⟩
  · have ha : (inp.afterContent f).endsWithError = true := h.resolve_left hb
    exact ⟨"decode error", by
      simp [processFile, attackNameAndMetrics, hb, ha, Bind.bind, Except.bind]⟩

/-- The collection loop fails as soon as any of its files fails. -/
theorem collectBenchmarks_error (agg : List Result → Metrics) (inp : Inputs)
    (l : List String) (f : String) (hf : f ∈ l)
    (he : ∃ e, processFile agg inp f = Except.error e) :
    ∃ e, collectBenchmarks agg inp l = Except.error e := by
  induction l with
  | nil => cases hf
  | cons x xs ih =>
    rcases List.mem_cons.mp hf with rfl | hmem
    · obtain ⟨e, hx⟩ := he
      exact ⟨e, by simp [collectBenchmarks, hx, Bind.bind, Except.bind]⟩
    · cases hx : processFile agg inp x with
      | error e =>
        exact ⟨e, by simp [collectBenchmarks, hx, Bind.bind, Except.bind]⟩
      | ok v =>
        obtain ⟨e, hrec⟩ := ih hmem
        exact ⟨e, by
          simp [collectBenchmarks, hx, hrec, Bind.bind, Except.bind]⟩

/-- C9: a mid-stream decode failure in any compared file aborts the
whole run — the process exits 1 and no report of any kind is emitted. -/
theorem decode_error_aborts (agg : List Result → Metrics) (fp : ℚ → String)
    (fmt : OutputFormat) (m : Margins) (inp : Inputs) (f : String)
    (hf : f ∈ commonFiles inp.beforeEntries inp.afterEntries)
    (herr : (inp.beforeContent f).endsWithError = true
        ∨ (inp.afterContent f).endsWithError = true) :
    runProgram agg fp fmt m inp = (1, none)
    ∧ ∃ e, runMain agg inp = Except.error e := by
  obtain ⟨e, hcol⟩ :=
    collectBenchmarks_error agg inp _ f hf (processFile_error agg inp f herr)
  have hraw : runMainRaw agg inp = Except.error e := by
    simp [runMainRaw, hcol, Bind.bind, Except.bind]
  have hmain : runMain agg inp = Except.error e := by
    simp [runMain, hraw, Except.map]
  exact ⟨by simp [runProgram, hmain], ⟨e, hmain⟩⟩

/-- Witness for C9: a single common file whose before-side stream is
malformed. -/
theorem decode_error_aborts_witness :
    runProgram (fun _ => ⟨0, 0, 0, 0, ⟨0, 0, 0, 0, 0⟩, ⟨0, 0⟩, ⟨0, 0⟩, 0⟩)
        (fun _ => "") OutputFormat.markdown ⟨0, 0, 0, 0, 0, 0⟩
        ⟨[⟨"a", false⟩], [⟨"a", false⟩],
         fun _ => ⟨[], true, 0⟩, fun _ => ⟨[], false, 0⟩⟩ =
      (1, none)
    ∧ ∃ e, runMain (fun _ => ⟨0, 0, 0, 0, ⟨0, 0, 0, 0, 0⟩, ⟨0, 0⟩, ⟨0, 0⟩, 0⟩)
        ⟨[⟨"a", false⟩], [⟨"a", false⟩],
         fun _ => ⟨[], true, 0⟩, fun _ => ⟨[], false, 0⟩⟩ = Except.error e :=
  decode_error_aborts _ _ _ _ _ "a" (by decide) (Or.inl rfl)

/-- C3: evaluating the markdown renderer at the spec's end-to-end
scenario (latencies 178/131/436/517/523 ms before, 142/130/167/613/655
ms after, success ratio 0.01 on both sides) produces the claimed latency
deltas -20.22%, -0.76%, -61.70%, +18.57%, +25.24%, but the success cell
reads `0.01% → 0.01%` — the raw ratio with a percent sign — not the
claimed `1% → 1%`. -/
theorem markdown_scenario_eval :
    writeMarkdownRow
        ⟨"s", ⟨0, 0, 0, 0, ⟨178000000, 131000000, 436000000, 517000000, 523000000⟩,
               ⟨0, 0⟩, ⟨0, 0⟩, 1/100⟩,
              ⟨0, 0, 0, 0, ⟨142000000, 130000000, 167000000, 613000000, 655000000⟩,
               ⟨0, 0⟩, ⟨0, 0⟩, 1/100⟩⟩ =
      "| 178ms → 142ms (-20.22%) | 131ms → 130ms (-0.76%) | " ++
      "436ms → 167ms (-61.70%) | 517ms → 613ms (18.57%) | " ++
      "523ms → 655ms (25.24%) | 0.01% → 0.01% |"
    ∧ ("0.01% → 0.01%" : String) ≠ "1% → 1%" :=
  ⟨by set_option maxRecDepth 4000 in decide, by decide⟩

/-- `smartFormat` takes its first branch exactly on nonzero sub-second
magnitudes. -/
theorem smartFormat_sub_second (d : Int) (hne : d ≠ 0) (habs : |d| < secondNS) :
    smartFormat d = goDurationString (goRound d (1 * millisecondNS)) := by
  have h1 : (d > 0 ∧ d < secondNS) ∨ (d < 0 ∧ -d < secondNS) := by
    obtain ⟨hl, hr⟩ := abs_lt.mp habs
    rcases lt_or_gt_of_ne hne with hneg | hpos
    · exact Or.inr ⟨hneg, by omega⟩
    · exact Or.inl ⟨hpos, hr⟩
  unfold smartFormat
  rw [if_pos h1]

/-- `smartFormat` takes its second branch exactly on magnitudes in
`[1s, 1min)`. -/
theorem smartFormat_sub_minute (d : Int) (h1 : secondNS ≤ |d|) (h2 : |d| < minuteNS) :
    smartFormat d = goDurationString (goRound d (100 * millisecondNS)) := by
  obtain ⟨hl, hr⟩ := abs_lt.mp h2
  have hsec : (0 : Int) < secondNS := by norm_num [secondNS]
  have hno : ¬((d > 0 ∧ d < secondNS) ∨ (d < 0 ∧ -d < secondNS)) := by
    intro hc
    rcases le_abs.mp h1 with h | h <;> rcases hc with ⟨h3, h4⟩ | ⟨h3, h4⟩ <;> omega
  have hyes : (d > 0 ∧ d < minuteNS) ∨ (d < 0 ∧ -d < minuteNS) := by
    rcases le_abs.mp h1 with h | h
    · exact Or.inl ⟨by omega, by omega⟩
    · exact Or.inr ⟨by omega, by omega⟩
  unfold smartFormat
  rw [if_neg hno, if_pos hyes]

/-- `smartFormat` takes its `%.0fs` branch on magnitudes of a minute or
more. -/
theorem smartFormat_minutes (d : Int) (h1 : minuteNS ≤ |d|) :
    smartFormat d = fmtF 0 ((d : ℚ) / (secondNS : ℚ)) ++ "s" := by
  have hsec : (0 : Int) < secondNS := by norm_num [secondNS]
  have hmin : secondNS < minuteNS := by norm_num [secondNS, minuteNS]
  have hno1 : ¬((d > 0 ∧ d < secondNS) ∨ (d < 0 ∧ -d < secondNS)) := by
    intro hc
    rcases le_abs.mp h1 with h | h <;> rcases hc with ⟨h3, h4⟩ | ⟨h3, h4⟩ <;> omega
  have hno2 : ¬((d > 0 ∧ d < minuteNS) ∨ (d < 0 ∧ -d < minuteNS)) := by
    intro hc
    rcases le_abs.mp h1 with h | h <;> rcases hc with ⟨h3, h4⟩ | ⟨h3, h4⟩ <;> omega
  unfold smartFormat
  rw [if_neg hno1, if_neg hno2]

/-- `Duration.Round` is the identity on exact multiples of the unit. -/
theorem goRound_natMul (q m : Nat) (hm : 0 < m) :
    goRound ((q * m : Nat) : Int) ((m : Nat) : Int) = ((q * m : Nat) : Int) := by
  simp only [goRound, Int.natAbs_ofNat, Int.toNat_ofNat]
  rw [if_neg (by omega), if_neg (by omega), Nat.mul_mod_left,
    Nat.mul_div_cancel q hm, if_pos (by omega)]

/-- In its sub-second branch, `smartFormat` of a whole number of
milliseconds (1 to 999) renders with an `ms` unit. -/
theorem smartFormat_whole_ms (k : Nat) (hk1 : 1 ≤ k) (hk2 : k ≤ 999) :
    smartFormat ((k : Int) * millisecondNS) = toString k ++ "ms" := by
  have hcast : (k : Int) * millisecondNS = ((k * 1000000 : Nat) : Int) := by
    simp only [millisecondNS]
    push_cast
    ring
  have hm1 : (1 : Int) * millisecondNS = ((1000000 : Nat) : Int) := by
    simp [millisecondNS]
  have hpos : ((k * 1000000 : Nat) : Int) > 0 := by omega
  have hlt : ((k * 1000000 : Nat) : Int) < secondNS := by
    simp only [secondNS]
    omega
  rw [hcast]
  unfold smartFormat
  rw [if_pos (Or.inl ⟨hpos, hlt⟩), hm1, goRound_natMul k 1000000 (by omega)]
  simp only [goDurationString, Int.natAbs_ofNat]
  rw [if_neg (by omega : ¬((k * 1000000 : Nat) : Int) = 0), if_neg (by omega),
    if_neg (by omega), if_neg (by omega), if_pos (by omega),
    Nat.mul_div_cancel k (by omega : (0 : Nat) < 1000000), Nat.mul_mod_left]
  simp [fracString]

/-- A negative duration at least one unit large rounds to a negative
duration. -/
theorem goRound_neg_of (d m : Int) (hd : d < 0) (hm : 0 < m) (hdm : m ≤ -d) :
    goRound d m < 0 := by
  simp only [goRound]
  rw [if_neg (by omega), if_pos hd]
  have hq : 1 ≤ d.natAbs / m.toNat := by
    rw [Nat.one_le_div_iff (by omega)]
    omega
  rcases Nat.lt_or_ge (2 * (d.natAbs % m.toNat)) m.toNat with h | h
  · rw [if_pos h]
    have hp : 0 < d.natAbs / m.toNat * m.toNat := Nat.mul_pos (by omega) (by omega)
    omega
  · rw [if_neg (by omega)]
    have hp : 0 < (d.natAbs / m.toNat + 1) * m.toNat := Nat.mul_pos (by omega) (by omega)
    omega

/-- A negative duration renders with a leading minus sign. -/
theorem goDurationString_neg (v : Int) (hv : v < 0) :
    ∃ t, goDurationString v = "-" ++ t := by
  simp only [goDurationString]
  rw [if_neg (by omega : ¬v = 0), if_pos hv]
  exact ⟨_, rfl⟩

/-- Negative sub-minute durations of at least a second keep their sign
through `smartFormat`. -/
theorem smartFormat_neg_sign (d : Int) (hd : d < 0) (h1 : secondNS ≤ |d|)
    (h2 : |d| < minuteNS) : ∃ t, smartFormat d = "-" ++ t := by
  rw [smartFormat_sub_minute d h1 h2]
  have h1n : secondNS ≤ -d := by rwa [abs_of_neg hd] at h1
  refine goDurationString_neg _ (goRound_neg_of d _ hd ?_ ?_)
  · norm_num [millisecondNS]
  · simp only [millisecondNS, secondNS] at *
    omega

/-- C8 counterexample: a duration of exactly two seconds falls in the
`[1s, 1min)` branch, where the claim promises an `s` rendering with one
decimal visible (`2.0s`); the code renders `2s` (Go duration notation
drops the zero decimal). -/
theorem smartFormat_claim_counterexample :
    smartFormat (2 * secondNS) = "2s"
    ∧ claimedSmartFormat (2 * secondNS) = "2.0s"
    ∧ ("2s" : String) ≠ "2.0s" :=
  ⟨by decide, by decide, by decide⟩

/-- C8 (amended): `smartFormat` rounds to the nearest millisecond below
one second of magnitude, to the nearest 100ms between one second and one
minute, and prints `%.0fs` beyond, rendering the rounded value in Go
duration notation: nonzero whole-millisecond values below a second get
an `ms` unit, the zero value renders `0s`, sub-minute values show at
most one decimal (a trailing `.0` is dropped), and the sign of negative
durations is preserved. -/
theorem smartFormat_amended_spec :
    (∀ d : Int, d ≠ 0 → |d| < secondNS →
        smartFormat d = goDurationString (goRound d (1 * millisecondNS)))
    ∧ (∀ d : Int, secondNS ≤ |d| → |d| < minuteNS →
        smartFormat d = goDurationString (goRound d (100 * millisecondNS)))
    ∧ (∀ d : Int, minuteNS ≤ |d| →
        smartFormat d = fmtF 0 ((d : ℚ) / (secondNS : ℚ)) ++ "s")
    ∧ (∀ k : Nat, 1 ≤ k → k ≤ 999 →
        smartFormat ((k : Int) * millisecondNS) = toString k ++ "ms")
    ∧ (∀ d : Int, d < 0 → secondNS ≤ |d| → |d| < minuteNS →
        ∃ t, smartFormat d = "-" ++ t)
    ∧ smartFormat 0 = "0s" :=
  ⟨smartFormat_sub_second, smartFormat_sub_minute, smartFormat_minutes,
   smartFormat_whole_ms, smartFormat_neg_sign, by decide⟩
